import Mathlib

/-!
Verification of the dx-toolkit app-builder and org-CLI layer.

We give a shallow embedding of src/python/dxpy/app_builder.py and
src/python/dxpy/cli/org.py. Remote API calls are modelled by an explicit
environment record holding the outcome of each remote endpoint, and every
function returns the ordered list of calls it issued (its trace) together
with its result. Python exceptions are modelled by Except; the distinction
the code draws between DXAPIError and every other exception is kept in the
error type. Local-filesystem reads (the dxapp.json manifest, the readme,
the code file, the resources directory listing) are inputs to the embedded
functions, since the code only ever reads them.
-/

namespace DxToolkit

/-- A remote API error: dxpy.exceptions.DXAPIError carries an error name and
a message, and the code branches on both. Any other Python exception is
modelled by the second constructor. -/
inductive PyErr where
  | dxapi (name msg : String)
  | other (msg : String)
deriving DecidableEq, Repr

/-- Errors raised by the app-builder module: AppletBuilderException with its
message, or a propagated Python-level error. -/
inductive BuildErr where
  | builder (msg : String)
  | py (e : PyErr)
deriving DecidableEq, Repr

/-- Errors raised by the org CLI module: DXCLIError with its message, or a
propagated Python-level error. -/
inductive CliErr where
  | dxcli (msg : String)
  | py (e : PyErr)
deriving DecidableEq, Repr

/-! ## Org CLI (src/python/dxpy/cli/org.py) -/

/-- Remote calls issued by the org membership commands. -/
inductive OEvent where
  | getMemberAccess
  | orgInvite
  | removeMember
deriving DecidableEq, Repr

/-- Outcomes of the remote org endpoints for one invocation. -/
structure OrgEnv where
  getMemberAccess : Except PyErr Unit
  orgInvite : Except PyErr Unit
  removeMember : Except PyErr Unit

/-- add_membership (org.py lines 54-69): probe membership with
org_get_member_access inside a bare try/except; on probe success raise
DXCLIError, on any probe exception fall through (pass) and call org_invite. -/
def add_membership (env : OrgEnv) : List OEvent × Except CliErr Unit :=
  match env.getMemberAccess with
  | .ok _ =>
      ([OEvent.getMemberAccess],
       .error (CliErr.dxcli ("Cannot add a user who is already a member of the org")))
  | .error _ =>
      match env.orgInvite with
      | .ok _ => ([OEvent.getMemberAccess, OEvent.orgInvite], .ok ())
      | .error e => ([OEvent.getMemberAccess, OEvent.orgInvite], .error (CliErr.py e))

/-- remove_membership (org.py lines 80-121): probe membership (errors
propagate), compute confirmed = not args.confirm, prompt interactively when
not yet confirmed, and call org_remove_member only when confirmed; a
declined prompt prints an abort message and returns normally. The prompt
reply is the promptYes argument. -/
def remove_membership (confirm promptYes : Bool) (env : OrgEnv) :
    List OEvent × Except CliErr Unit :=
  match env.getMemberAccess with
  | .error e => ([OEvent.getMemberAccess], .error (CliErr.py e))
  | .ok _ =>
    let confirmed := !confirm
    let confirmed := if !confirmed then promptYes else confirmed
    if confirmed then
      match env.removeMember with
      | .ok _ => ([OEvent.getMemberAccess, OEvent.removeMember], .ok ())
      | .error e =>
          ([OEvent.getMemberAccess, OEvent.removeMember], .error (CliErr.py e))
    else
      ([OEvent.getMemberAccess], .ok ())

/-! ## Applet building (src/python/dxpy/app_builder.py) -/

/-- A bundled-dependency descriptor as produced by upload_resources:
the dict with keys name and id, where id holds the dxlink to the uploaded
archive (we record the wrapped file id). -/
structure Bundle where
  name : String
  id : String
deriving DecidableEq, Repr

/-- An execDepends entry. The code reads entries with dep.get, so every
field is optional. -/
structure ExecDep where
  name : Option String
  package_manager : Option String
  url : Option String
  tag : Option String
  build_commands : Option String
deriving DecidableEq, Repr

/-- The runSpec sub-document, restricted to the keys app_builder.py touches. -/
structure RunSpec where
  file : Option String
  code : Option String
  bundledDepends : Option (List Bundle)
  execDepends : Option (List ExecDep)
deriving DecidableEq, Repr

/-- The details sub-document, restricted to the key app_builder.py touches. -/
structure Details where
  contactUrl : Option String
deriving DecidableEq, Repr

/-- The dxapp.json applet specification, restricted to the keys
app_builder.py reads or writes; a key absent from the dict is none. -/
structure AppletSpec where
  runSpec : Option RunSpec
  project : Option String
  name : Option String
  folder : Option String
  dxapi : Option String
  description : Option String
  title : Option String
  summary : Option String
  categories : Option (List String)
  details : Option Details
deriving DecidableEq, Repr

/-- The ambient dxpy.API_VERSION constant (its value is irrelevant to every
claim; only the defaulting step matters). -/
def API_VERSION : String := "1.0.0"

/-- Message of the AppletBuilderException raised when runSpec is missing
(app_builder.py line 32; inner quote marks around runSpec elided). -/
def runSpecErrMsg : String := "Required field runSpec not found in dxapp.json"

/-- _validate_applet_spec (lines 30-32): require the runSpec key. -/
def _validate_applet_spec (applet_spec : AppletSpec) : Except BuildErr Unit :=
  if applet_spec.runSpec.isNone then .error (BuildErr.builder runSpecErrMsg)
  else .ok ()

/-- _get_applet_spec (lines 37-45): load dxapp.json (the manifest argument),
validate it, and default the project key to dxpy.WORKSPACE_ID. -/
def _get_applet_spec (manifest : AppletSpec) (workspaceId : Option String) :
    Except BuildErr AppletSpec :=
  match _validate_applet_spec manifest with
  | .error e => .error e
  | .ok _ =>
      .ok (if manifest.project.isNone then {manifest with project := workspaceId}
           else manifest)

/-- Calls (remote API calls, plus the local tar subprocess) issued by
upload_resources, in order. -/
inductive REvent where
  | tar
  | newFolder (project : Option String) (folder : String)
  | upload (project : Option String) (folder : String)
deriving DecidableEq, Repr

/-- Outcomes of the calls upload_resources can issue. -/
structure ResEnv where
  tar : Except PyErr Unit
  newFolder : Except PyErr Unit
  upload : Except PyErr String

/-- Whether os.path.exists(resources_dir) and len(os.listdir(resources_dir))
is positive (line 94); the resources argument is none when the directory is
absent, otherwise the directory listing. -/
def resourcesNonEmpty (resources : Option (List String)) : Bool :=
  match resources with
  | some entries => entries.length > 0
  | none => false

/-- upload_resources (lines 75-110): load and default the spec, resolve the
destination project (argument over spec key), and when resources/ exists and
is non-empty: tar it, create the destination folder when the spec has one
(swallowing any DXAPIError from that call, lines 100-103), upload the
archive, and return the one-element bundle list; otherwise return None. -/
def upload_resources (manifest : AppletSpec) (resources : Option (List String))
    (env : ResEnv) (project : Option String) (workspaceId : Option String) :
    List REvent × Except BuildErr (Option (List Bundle)) :=
  match _get_applet_spec manifest workspaceId with
  | .error e => ([], .error e)
  | .ok spec0 =>
    let spec := match project with
      | none => spec0
      | some p => {spec0 with project := some p}
    let destProject : Option String := spec.project
    if resourcesNonEmpty resources then
      match env.tar with
      | .error e => ([REvent.tar], .error (BuildErr.py e))
      | .ok _ =>
        let folderStep : List REvent × Option PyErr :=
          match spec.folder with
          | some f =>
              match env.newFolder with
              | .ok _ => ([REvent.newFolder destProject f], none)
              | .error (PyErr.dxapi _ _) => ([REvent.newFolder destProject f], none)
              | .error (PyErr.other m) =>
                  ([REvent.newFolder destProject f], some (PyErr.other m))
          | none => ([], none)
        match folderStep.2 with
        | some e => (REvent.tar :: folderStep.1, .error (BuildErr.py e))
        | none =>
          let targetFolder := match spec.folder with
            | some f => f
            | none => "/"
          match env.upload with
          | .ok fileId =>
              (REvent.tar :: folderStep.1 ++ [REvent.upload destProject targetFolder],
               .ok (some [{name := "resources.tar.gz", id := fileId}]))
          | .error e =>
              (REvent.tar :: folderStep.1 ++ [REvent.upload destProject targetFolder],
               .error (BuildErr.py e))
    else
      ([], .ok none)

/-- The constant dx_toolkit_dep record (lines 177-181). -/
def dx_toolkit_dep : ExecDep :=
  { name := some ("dx-toolkit"),
    package_manager := some ("git"),
    url := some ("git@github.com:dnanexus/dx-toolkit.git"),
    tag := some ("master"),
    build_commands := some ("make install DESTDIR=/ PREFIX=/opt/dnanexus") }

/-- The dx_toolkit_dep_found flag computed by the loop at lines 184-187:
true when some entry matches by name or by url. -/
def dxToolkitDepFound (deps : List ExecDep) : Bool :=
  deps.any (fun dep =>
    dep.name == some ("dx-toolkit") ||
    dep.url == some ("git@github.com:dnanexus/dx-toolkit.git"))

/-- The execDepends augmentation on the plain list: append dx_toolkit_dep
unless an entry already matches (lines 184-189). -/
def augmentExecDepends (deps : List ExecDep) : List ExecDep :=
  if dxToolkitDepFound deps then deps else deps ++ [dx_toolkit_dep]

/-- The dx-toolkit dependency augmentation step of upload_applet on the
runSpec document: setdefault execDepends to the empty list (line 183), then
append dx_toolkit_dep unless found (lines 184-189). -/
def augmentStep (rs : RunSpec) : RunSpec :=
  {rs with execDepends := some (augmentExecDepends (rs.execDepends.getD []))}

/-- Remote calls issued by upload_applet, in order. -/
inductive AEvt where
  | findDataObjects (name : String)
  | removeObjects (id : String)
  | appletNew
  | appletSetProperties
  | addTags
deriving DecidableEq, Repr

/-- Outcomes of the remote calls upload_applet can issue. find_data_objects
returns the ids of the existing applets carrying the searched name in the
destination project. -/
structure AppletEnv where
  findByName : String → List String
  removeObjects : String → Except PyErr Unit
  appletNew : AppletSpec → Except PyErr String
  appletSetProperties : Except PyErr Unit
  addTags : Except PyErr Unit

/-- The for-loop over the name-collision search results (lines 135-141):
with overwrite, remove each found object (a failing removal propagates);
without overwrite, raise AppletBuilderException at the first found object. -/
def collisionLoop (env : AppletEnv) (specName : String) (overwrite : Bool) :
    List String → List AEvt × Except BuildErr Unit
  | [] => ([], .ok ())
  | id :: rest =>
    if overwrite then
      match env.removeObjects id with
      | .ok _ =>
          let r := collisionLoop env specName overwrite rest
          (AEvt.removeObjects id :: r.1, r.2)
      | .error e => ([AEvt.removeObjects id], .error (BuildErr.py e))
    else
      ([], .error (BuildErr.builder
        ("A applet with name " ++ specName ++ " already exists (id " ++ id ++
         ") and the overwrite option was not given")))

/-- The pure spec overrides of upload_applet (lines 143-198): readme
description inlining, run-code inlining via codeContents, bundled-resource
attachment, dx-toolkit execDepends augmentation, contactUrl defaulting. -/
def applyOverrides (spec3 : AppletSpec) (theName : String)
    (readme : Option String) (codeContents : String → String)
    (uploaded_resources : Option (List Bundle))
    (dx_toolkit_autodep : Bool) : AppletSpec :=
  let spec4 := if spec3.description.isNone then
      match readme with
      | some txt => {spec3 with description := some txt}
      | none => spec3
    else spec3
  let spec5 := match spec4.runSpec with
    | some rs =>
        match rs.file with
        | some f =>
            {spec4 with runSpec := some {rs with code := some (codeContents f), file := none}}
        | none => spec4
    | none => spec4
  let spec6 := match uploaded_resources with
    | some res =>
        match spec5.runSpec with
        | some rs =>
            let rs2 := {rs with bundledDepends := some (rs.bundledDepends.getD [] ++ res)}
            {spec5 with runSpec := some rs2}
        | none => spec5
    | none => spec5
  let spec7 := if dx_toolkit_autodep then
      match spec6.runSpec with
      | some rs => {spec6 with runSpec := some (augmentStep rs)}
      | none => spec6
    else spec6
  let d := spec7.details.getD {contactUrl := none}
  if d.contactUrl.isNone then
    let d2 : Details := {contactUrl := some ("http://wiki.dnanexus.com/Apps/" ++ theName)}
    {spec7 with details := some d2}
  else {spec7 with details := some d}

/-- The applet-creation tail of upload_applet (lines 200-218): appletNew,
appletSetProperties, and add_tags when the spec has categories. -/
def appletCreateSteps (env : AppletEnv) (spec8 : AppletSpec) :
    List AEvt × Except BuildErr String :=
  match env.appletNew spec8 with
  | .error e => ([AEvt.appletNew], .error (BuildErr.py e))
  | .ok appletId =>
    match env.appletSetProperties with
    | .error e =>
        ([AEvt.appletNew, AEvt.appletSetProperties], .error (BuildErr.py e))
    | .ok _ =>
      if spec8.categories.isSome then
        match env.addTags with
        | .error e =>
            ([AEvt.appletNew, AEvt.appletSetProperties, AEvt.addTags],
             .error (BuildErr.py e))
        | .ok _ =>
            ([AEvt.appletNew, AEvt.appletSetProperties, AEvt.addTags],
             .ok appletId)
      else
        ([AEvt.appletNew, AEvt.appletSetProperties], .ok appletId)

/-- upload_applet (lines 112-218): load and default the spec, resolve the
destination project, default the name from the source directory basename
(srcBasename, none when unresolvable), default dxapi, run the name-collision
check, then apply the pure spec overrides and issue the creation calls.
Returns the new applet id. -/
def upload_applet (manifest : AppletSpec) (srcBasename : Option String)
    (readme : Option String) (codeContents : String → String)
    (uploaded_resources : Option (List Bundle))
    (check_name_collisions overwrite : Bool) (project : Option String)
    (dx_toolkit_autodep : Bool) (workspaceId : Option String)
    (env : AppletEnv) : List AEvt × Except BuildErr String :=
  match _get_applet_spec manifest workspaceId with
  | .error e => ([], .error e)
  | .ok spec0 =>
  let spec1 := match project with
    | none => spec0
    | some p => {spec0 with project := some p}
  match (match spec1.name with
         | some _ => Except.ok spec1
         | none =>
             match srcBasename with
             | some b => Except.ok {spec1 with name := some b}
             | none => Except.error (BuildErr.builder
                 ("Could not resolve applet name from specification or working directory"))) with
  | .error e => ([], .error e)
  | .ok spec2 =>
  let theName := spec2.name.getD ("")
  let spec3 := if spec2.dxapi.isNone then {spec2 with dxapi := some API_VERSION}
               else spec2
  let coll : List AEvt × Except BuildErr Unit :=
    if check_name_collisions then
      let r := collisionLoop env theName overwrite (env.findByName theName)
      (AEvt.findDataObjects theName :: r.1, r.2)
    else ([], .ok ())
  match coll.2 with
  | .error e => (coll.1, .error e)
  | .ok _ =>
  let post := appletCreateSteps env
    (applyOverrides spec3 theName readme codeContents uploaded_resources
      dx_toolkit_autodep)
  (coll.1 ++ post.1, post.2)

/-! ## App version publication (app_builder.py lines 220-337)

create_app assembles the app spec from the applet describe output (pure
data plumbing abstracted into the name argument) and then runs the version
loop. The remote endpoints are modelled by a deterministic environment
keyed on the version string; events record each call in order. -/

/-- Remote calls issued by the app publication loop, in order. appDescribe
and appUpdate address the app by name (the wire route prepends app-) and
version alias; appNew carries the version inside the posted spec. -/
inductive PEvent where
  | appDescribe (name version : String)
  | appNew (version : String)
  | appUpdate (name version : String)
  | appAddCategories (appId : String)
  | appPublish (appId : String)
deriving DecidableEq, Repr

/-- Outcomes of the remote app endpoints, as a function of the version being
attempted. appDescribe returns the published field of the describe output
(the code reads it with .get and default 0, so it is a bare Nat). -/
structure AppEnv where
  appDescribe : String → String → Except PyErr Nat
  appNew : String → Except PyErr String
  appUpdate : String → String → Except PyErr String
  appAddCategories : String → Except PyErr Unit
  appPublish : String → Except PyErr Unit

/-- Result type of create_app: the exhaustion EnvironmentError, or a
propagated error from a remote call. -/
inductive CreateErr where
  | exhausted (msg : String)
  | py (e : PyErr)
deriving DecidableEq, Repr

/-- The message of the DXAPIError that signals a name+version alias
conflict (line 233). -/
def aliasConflictMsg : String :=
  "Specified name and version conflict with an existing alias"

/-- _update_version (lines 244-259): return None without calling the API
when try_update is off; otherwise call appUpdate, mapping the InvalidState
error to None (already published) and propagating every other error. -/
def _update_version (env : AppEnv) (app_name version : String)
    (try_update : Bool) : List PEvent × Except PyErr (Option String) :=
  if !try_update then ([], .ok none)
  else
    match env.appUpdate app_name version with
    | .ok appId => ([PEvent.appUpdate app_name version], .ok (some appId))
    | .error (PyErr.dxapi n m) =>
        if n = "InvalidState" then ([PEvent.appUpdate app_name version], .ok none)
        else ([PEvent.appUpdate app_name version], .error (PyErr.dxapi n m))
    | .error (PyErr.other m) =>
        ([PEvent.appUpdate app_name version], .error (PyErr.other m))

/-- _create_or_update_version (lines 220-242): call appNew; on the specific
InvalidInput alias-conflict error, re-probe with appDescribe and either give
up (published) or fall back to _update_version; every other error
propagates. -/
def _create_or_update_version (env : AppEnv) (app_name version : String)
    (try_update : Bool) : List PEvent × Except PyErr (Option String) :=
  match env.appNew version with
  | .ok appId => ([PEvent.appNew version], .ok (some appId))
  | .error (PyErr.dxapi n m) =>
      if n = "InvalidInput" && m = aliasConflictMsg then
        match env.appDescribe app_name version with
        | .ok published =>
            if published > 0 then
              ([PEvent.appNew version, PEvent.appDescribe app_name version], .ok none)
            else
              let r := _update_version env app_name version try_update
              ([PEvent.appNew version, PEvent.appDescribe app_name version] ++ r.1, r.2)
        | .error e2 =>
            ([PEvent.appNew version, PEvent.appDescribe app_name version], .error e2)
      else ([PEvent.appNew version], .error (PyErr.dxapi n m))
  | .error (PyErr.other m) => ([PEvent.appNew version], .error (PyErr.other m))

/-- One iteration of the version loop of create_app (lines 284-322): probe
with appDescribe (ResourceNotFound means not yet created, any other error is
fatal), then dispatch on the three per-version states. The result is
some appId on terminal success and none when this candidate is exhausted. -/
def tryVersion (env : AppEnv) (name version : String) (try_update : Bool) :
    List PEvent × Except PyErr (Option String) :=
  match env.appDescribe name version with
  | .error (PyErr.dxapi n m) =>
      if n = "ResourceNotFound" then
        let r := _create_or_update_version env name version try_update
        (PEvent.appDescribe name version :: r.1, r.2)
      else ([PEvent.appDescribe name version], .error (PyErr.dxapi n m))
  | .error (PyErr.other m) =>
      ([PEvent.appDescribe name version], .error (PyErr.other m))
  | .ok published =>
      if published = 0 then
        let r := _update_version env name version try_update
        (PEvent.appDescribe name version :: r.1, r.2)
      else ([PEvent.appDescribe name version], .ok none)

/-- The for-loop of create_app over the candidate versions: stop at the
first terminal success, fall through on an exhausted candidate, propagate
errors; .ok none means every candidate was exhausted (the for-else branch). -/
def createAppGo (env : AppEnv) (name : String) (try_update : Bool) :
    List String → List PEvent × Except PyErr (Option String)
  | [] => ([], .ok none)
  | v :: rest =>
    let r := tryVersion env name v try_update
    match r.2 with
    | .ok (some appId) => (r.1, .ok (some appId))
    | .ok none =>
        let r2 := createAppGo env name try_update rest
        (r.1 ++ r2.1, r2.2)
    | .error e => (r.1, .error e)

/-- The join of the attempted versions in the exhaustion message, embedding
the Python separator join with a comma and space. -/
def joinVersions : List String → String
  | [] => ""
  | [v] => v
  | v :: rest => v ++ ", " ++ joinVersions rest

/-- The EnvironmentError message raised when every candidate version failed
(lines 323-329). -/
def exhaustMsg (try_versions : List String) : String :=
  if try_versions.length != 1 then
    "Could not create any of the requested versions: " ++ joinVersions try_versions
  else
    "Could not create the requested version: " ++ joinVersions try_versions

/-- create_app (lines 261-337), from the version loop on: run the loop over
try_versions; raise the exhaustion EnvironmentError when every candidate
fails; on success optionally add categories and optionally publish, then
return the app id. -/
def create_app (env : AppEnv) (name : String) (try_versions : List String)
    (try_update publish hasCategories : Bool) :
    List PEvent × Except CreateErr String :=
  let r := createAppGo env name try_update try_versions
  match r.2 with
  | .error e => (r.1, .error (CreateErr.py e))
  | .ok none => (r.1, .error (CreateErr.exhausted (exhaustMsg try_versions)))
  | .ok (some appId) =>
    let cat : List PEvent × Except PyErr Unit :=
      if hasCategories then
        match env.appAddCategories appId with
        | .ok _ => ([PEvent.appAddCategories appId], .ok ())
        | .error e => ([PEvent.appAddCategories appId], .error e)
      else ([], .ok ())
    match cat.2 with
    | .error e => (r.1 ++ cat.1, .error (CreateErr.py e))
    | .ok _ =>
      let pub : List PEvent × Except PyErr Unit :=
        if publish then
          match env.appPublish appId with
          | .ok _ => ([PEvent.appPublish appId], .ok ())
          | .error e => ([PEvent.appPublish appId], .error e)
        else ([], .ok ())
      match pub.2 with
      | .error e => (r.1 ++ cat.1 ++ pub.1, .error (CreateErr.py e))
      | .ok _ => (r.1 ++ cat.1 ++ pub.1, .ok appId)

/-! ## Theorems -/

/-- The augmented list always contains a matching toolkit entry. -/
lemma dxToolkitDepFound_augment (deps : List ExecDep) :
    dxToolkitDepFound (augmentExecDepends deps) = true := by
  unfold augmentExecDepends
  by_cases h : dxToolkitDepFound deps = true
  · simp [h]
  · simp only [h, if_false]
    unfold dxToolkitDepFound at h ⊢
    simp [dx_toolkit_dep]

/-- Augmentation is idempotent on the plain list. -/
lemma augmentExecDepends_idem (deps : List ExecDep) :
    augmentExecDepends (augmentExecDepends deps) = augmentExecDepends deps := by
  have h1 : augmentExecDepends (augmentExecDepends deps)
      = if dxToolkitDepFound (augmentExecDepends deps) = true then
          augmentExecDepends deps
        else augmentExecDepends deps ++ [dx_toolkit_dep] := rfl
  rw [h1, dxToolkitDepFound_augment]
  simp

/-- C7: the dx-toolkit dependency augmentation step of upload_applet is
idempotent: a runSpec whose execDepends already holds an entry matching by
name or url is left unchanged; otherwise the toolkit entry is appended once;
and applying the step twice equals applying it once. -/
theorem dx_toolkit_autodep_idempotent (rsA rsB : RunSpec)
    (depsA depsB : List ExecDep)
    (hA : rsA.execDepends = some depsA) (hAf : dxToolkitDepFound depsA = true)
    (hB : rsB.execDepends = some depsB) (hBf : dxToolkitDepFound depsB = false) :
    augmentStep rsA = rsA
    ∧ augmentStep rsB = {rsB with execDepends := some (depsB ++ [dx_toolkit_dep])}
    ∧ ∀ rs : RunSpec, augmentStep (augmentStep rs) = augmentStep rs := by
  refine ⟨?_, ?_, ?_⟩
  · cases rsA with
    | mk f c b ed =>
      change ed = some depsA at hA
      subst hA
      unfold augmentStep augmentExecDepends
      simp [hAf]
  · unfold augmentStep augmentExecDepends
    rw [hB]
    simp [hBf]
  · intro rs
    unfold augmentStep
    simp [augmentExecDepends_idem]

/-- C7 witness: concrete runSpecs, one already carrying the toolkit entry
and one without it. -/
theorem dx_toolkit_autodep_idempotent_witness :
    augmentStep {file := none, code := none, bundledDepends := none,
                 execDepends := some [dx_toolkit_dep]}
      = {file := none, code := none, bundledDepends := none,
         execDepends := some [dx_toolkit_dep]} := by
  have h := dx_toolkit_autodep_idempotent
    {file := none, code := none, bundledDepends := none,
     execDepends := some [dx_toolkit_dep]}
    {file := none, code := none, bundledDepends := none, execDepends := some []}
    [dx_toolkit_dep] []
    (by rfl) (by decide) (by rfl) (by decide)
  exact h.1

/-- C8: remove_membership without the force flag (confirm = true) and with
the interactive confirmation declined issues no org_remove_member call and
returns normally (a deliberate no-op, not an error); moreover, for any
endpoint outcomes whatsoever, the declined path never calls
org_remove_member. -/
theorem remove_membership_decline (env : OrgEnv)
    (h : env.getMemberAccess = .ok ()) :
    remove_membership true false env = ([OEvent.getMemberAccess], .ok ())
    ∧ ∀ env2 : OrgEnv, OEvent.removeMember ∉ (remove_membership true false env2).1 := by
  constructor
  · unfold remove_membership
    rw [h]
    rfl
  · intro env2
    unfold remove_membership
    cases h2 : env2.getMemberAccess with
    | ok u => cases u; simp
    | error e => simp

/-- C8 witness: a concrete environment whose probe succeeds. -/
theorem remove_membership_decline_witness :
    remove_membership true false
        {getMemberAccess := .ok (), orgInvite := .ok (), removeMember := .ok ()}
      = ([OEvent.getMemberAccess], .ok ()) :=
  (remove_membership_decline
    {getMemberAccess := .ok (), orgInvite := .ok (), removeMember := .ok ()}
    rfl).1

/-- C9: add_membership probes org_get_member_access first; when the probe
succeeds it raises DXCLIError and never calls org_invite, and when the probe
raises any exception that exception is swallowed and the invite call
proceeds, the overall outcome being that of the invite call alone. -/
theorem add_membership_probe (envA envB : OrgEnv) (e : PyErr)
    (hA : envA.getMemberAccess = .ok ())
    (hB : envB.getMemberAccess = .error e) :
    (add_membership envA).2
        = .error (CliErr.dxcli ("Cannot add a user who is already a member of the org"))
    ∧ OEvent.orgInvite ∉ (add_membership envA).1
    ∧ (add_membership envB).1 = [OEvent.getMemberAccess, OEvent.orgInvite]
    ∧ (add_membership envB).2 = (match envB.orgInvite with
        | .ok _ => Except.ok ()
        | .error e2 => Except.error (CliErr.py e2)) := by
  refine ⟨?_, ?_, ?_, ?_⟩
  · unfold add_membership
    rw [hA]
  · unfold add_membership
    rw [hA]
    simp
  · unfold add_membership
    rw [hB]
    cases envB.orgInvite <;> rfl
  · unfold add_membership
    rw [hB]
    cases envB.orgInvite <;> rfl

/-- C9 witness: one environment where the user is already a member, one
where the probe fails and the invite succeeds. -/
theorem add_membership_probe_witness :
    (add_membership
        {getMemberAccess := .ok (), orgInvite := .ok (), removeMember := .ok ()}).2
      = .error (CliErr.dxcli ("Cannot add a user who is already a member of the org")) :=
  (add_membership_probe
    {getMemberAccess := .ok (), orgInvite := .ok (), removeMember := .ok ()}
    {getMemberAccess := .error (PyErr.dxapi ("ResourceNotFound") ("not a member")),
     orgInvite := .ok (), removeMember := .ok ()}
    (PyErr.dxapi ("ResourceNotFound") ("not a member"))
    rfl rfl).1

/-- C2: whenever upload_resources returns normally, a non-empty resources
directory yields exactly one bundle descriptor named resources.tar.gz, and
an absent or empty resources directory yields the absent sentinel None; the
empty list is never returned. -/
theorem upload_resources_shape (manifest : AppletSpec)
    (resources : Option (List String)) (env : ResEnv)
    (project workspaceId : Option String) (r : Option (List Bundle))
    (hr : (upload_resources manifest resources env project workspaceId).2
            = .ok r) :
    (resourcesNonEmpty resources = true →
        ∃ fileId, r = some [{name := "resources.tar.gz", id := fileId}])
    ∧ (resourcesNonEmpty resources = false → r = none)
    ∧ r ≠ some [] := by
  unfold upload_resources at hr
  cases hg : _get_applet_spec manifest workspaceId with
  | error e => rw [hg] at hr; simp at hr
  | ok spec0 =>
    rw [hg] at hr
    simp only at hr
    by_cases hne : resourcesNonEmpty resources = true
    · rw [if_pos hne] at hr
      cases ht : env.tar with
      | error e => rw [ht] at hr; simp at hr
      | ok u =>
        rw [ht] at hr
        cases u
        simp only at hr
        cases hfold : (match project with
            | none => spec0
            | some p => {spec0 with project := some p}).folder with
        | some f =>
          rw [hfold] at hr
          cases hnf : env.newFolder with
          | ok u2 =>
            rw [hnf] at hr
            cases u2
            simp only at hr
            cases hu : env.upload with
            | ok fileId =>
              rw [hu] at hr
              simp only [Except.ok.injEq] at hr
              subst hr
              refine ⟨fun _ => ⟨fileId, rfl⟩, fun hc => ?_, by simp⟩
              rw [hne] at hc
              cases hc
            | error e => rw [hu] at hr; simp at hr
          | error e =>
            rw [hnf] at hr
            cases e with
            | dxapi n m =>
              simp only at hr
              cases hu : env.upload with
              | ok fileId =>
                rw [hu] at hr
                simp only [Except.ok.injEq] at hr
                subst hr
                refine ⟨fun _ => ⟨fileId, rfl⟩, fun hc => ?_, by simp⟩
                rw [hne] at hc
                cases hc
              | error e2 => rw [hu] at hr; simp at hr
            | other m => simp at hr
        | none =>
          rw [hfold] at hr
          simp only at hr
          cases hu : env.upload with
          | ok fileId =>
            rw [hu] at hr
            simp only [Except.ok.injEq] at hr
            subst hr
            refine ⟨fun _ => ⟨fileId, rfl⟩, fun hc => ?_, by simp⟩
            rw [hne] at hc
            cases hc
          | error e => rw [hu] at hr; simp at hr
    · rw [if_neg hne] at hr
      simp only [Except.ok.injEq] at hr
      subst hr
      exact ⟨fun hc => absurd hc hne, fun _ => rfl, by simp⟩

/-- C2 witness: a concrete manifest with a non-empty resources directory and
all calls succeeding. -/
theorem upload_resources_shape_witness :
    ∃ fileId,
      some [({name := "resources.tar.gz", id := "file-0001"} : Bundle)]
        = some [({name := "resources.tar.gz", id := fileId} : Bundle)] := by
  have h := upload_resources_shape
    {runSpec := some {file := none, code := none, bundledDepends := none,
                      execDepends := none},
     project := some ("project-0001"), name := none, folder := none,
     dxapi := none, description := none, title := none, summary := none,
     categories := none, details := none}
    (some [("data.txt")])
    {tar := .ok (), newFolder := .ok (), upload := .ok ("file-0001")}
    none none
    (some [({name := "resources.tar.gz", id := "file-0001"} : Bundle)])
    (by rfl)
  exact h.1 (by decide)

/-- A concrete manifest with a configured destination folder, used to
exercise the folder-creation error handling of upload_resources. -/
def folderManifest : AppletSpec :=
  {runSpec := some {file := none, code := none, bundledDepends := none,
                    execDepends := none},
   project := some ("project-0001"), name := none, folder := some ("/target"),
   dxapi := none, description := none, title := none, summary := none,
   categories := none, details := none}

/-- C3 counterexample: the claim says folder-already-exists is the only
error swallowed, any other failure of the folder-creation call propagating.
In the code (app_builder.py lines 100-103) the except clause catches every
DXAPIError. Here the folder creation fails with a PermissionDenied API
error, which is not an already-exists failure, yet upload_resources
swallows it and returns successfully. -/
theorem upload_resources_swallows_any_api_error :
    (let env : ResEnv :=
      {tar := .ok (),
       newFolder := .error (PyErr.dxapi ("PermissionDenied") ("forbidden")),
       upload := .ok ("file-0001")}
     (upload_resources folderManifest (some [("data.txt")]) env none none).2)
      = .ok (some [{name := "resources.tar.gz", id := "file-0001"}]) := by
  rfl

/-- C3 amended: during resource packaging with a configured destination
folder, the folder-creation call swallows every DXAPIError (not only
already-exists); a non-API failure of the folder-creation call propagates,
and so do tar and upload failures. -/
theorem upload_resources_folder_error_policy (manifest : AppletSpec)
    (rs : RunSpec) (f : String)
    (hrs : manifest.runSpec = some rs) (hf : manifest.folder = some f)
    (resources : Option (List String)) (hne : resourcesNonEmpty resources = true)
    (project workspaceId : Option String)
    (envA : ResEnv) (n m : String)
    (hA : envA.newFolder = .error (PyErr.dxapi n m))
    (envO : ResEnv) (m2 : String)
    (hOt : envO.tar = .ok ()) (hO : envO.newFolder = .error (PyErr.other m2))
    (envT : ResEnv) (eT : PyErr) (hT : envT.tar = .error eT)
    (envU : ResEnv) (eU : PyErr)
    (hUt : envU.tar = .ok ()) (hUf : envU.newFolder = .ok ())
    (hU : envU.upload = .error eU) :
    upload_resources manifest resources envA project workspaceId
      = upload_resources manifest resources {envA with newFolder := .ok ()}
          project workspaceId
    ∧ (upload_resources manifest resources envO project workspaceId).2
        = .error (BuildErr.py (PyErr.other m2))
    ∧ (upload_resources manifest resources envT project workspaceId).2
        = .error (BuildErr.py eT)
    ∧ (upload_resources manifest resources envU project workspaceId).2
        = .error (BuildErr.py eU) := by
  cases manifest with
  | mk mrs mproj mnm mfold mdx mdesc mtit msum mcat mdet =>
    change mrs = some rs at hrs
    change mfold = some f at hf
    subst hrs
    subst hf
    unfold upload_resources _get_applet_spec _validate_applet_spec
    refine ⟨?_, ?_, ?_, ?_⟩
    · cases mproj <;> cases project <;> simp [hne, hA]
    · cases mproj <;> cases project <;> simp [hne, hOt, hO]
    · cases mproj <;> cases project <;> simp [hne, hT]
    · cases mproj <;> cases project <;> simp [hne, hUt, hUf, hU]

/-- C3 amended witness: concrete environments exercising the four cases. -/
theorem upload_resources_folder_error_policy_witness :
    (upload_resources folderManifest (some [("data.txt")])
        {tar := .ok (), newFolder := .error (PyErr.other ("disk full")),
         upload := .ok ("file-0001")} none none).2
      = .error (BuildErr.py (PyErr.other ("disk full"))) :=
  (upload_resources_folder_error_policy folderManifest
    {file := none, code := none, bundledDepends := none, execDepends := none}
    ("/target") rfl rfl (some [("data.txt")]) (by decide) none none
    {tar := .ok (), newFolder := .error (PyErr.dxapi ("PermissionDenied") ("forbidden")),
     upload := .ok ("file-0001")} ("PermissionDenied") ("forbidden") rfl
    {tar := .ok (), newFolder := .error (PyErr.other ("disk full")),
     upload := .ok ("file-0001")} ("disk full") rfl rfl
    {tar := .error (PyErr.other ("tar failed")), newFolder := .ok (),
     upload := .ok ("file-0001")} (PyErr.other ("tar failed")) rfl
    {tar := .ok (), newFolder := .ok (),
     upload := .error (PyErr.dxapi ("InternalError") ("upload failed"))}
    (PyErr.dxapi ("InternalError") ("upload failed")) rfl rfl rfl).2.1

/-- C4: a manifest without the runSpec key makes both upload_resources and
upload_applet fail with the AppletBuilderException configuration error
before issuing any call at all (their traces are empty). -/
theorem missing_runspec_fails_early (manifest : AppletSpec)
    (hm : manifest.runSpec = none)
    (resources : Option (List String)) (resEnv : ResEnv)
    (appletEnv : AppletEnv) (srcBasename readme : Option String)
    (codeContents : String → String) (uploaded : Option (List Bundle))
    (chk ow autodep : Bool) (project workspaceId : Option String) :
    upload_resources manifest resources resEnv project workspaceId
        = ([], .error (BuildErr.builder runSpecErrMsg))
    ∧ upload_applet manifest srcBasename readme codeContents uploaded
        chk ow project autodep workspaceId appletEnv
        = ([], .error (BuildErr.builder runSpecErrMsg)) := by
  have hv : _get_applet_spec manifest workspaceId
      = .error (BuildErr.builder runSpecErrMsg) := by
    unfold _get_applet_spec _validate_applet_spec
    rw [hm]
    rfl
  constructor
  · unfold upload_resources
    rw [hv]
  · unfold upload_applet
    rw [hv]

/-- C4 witness: a concrete manifest missing runSpec. -/
theorem missing_runspec_fails_early_witness :
    upload_resources
        {runSpec := none, project := none, name := none, folder := none,
         dxapi := none, description := none, title := none, summary := none,
         categories := none, details := none}
        none {tar := .ok (), newFolder := .ok (), upload := .ok ("file-0001")}
        none none
      = ([], .error (BuildErr.builder runSpecErrMsg)) :=
  (missing_runspec_fails_early
    {runSpec := none, project := none, name := none, folder := none,
     dxapi := none, description := none, title := none, summary := none,
     categories := none, details := none}
    rfl none {tar := .ok (), newFolder := .ok (), upload := .ok ("file-0001")}
    {findByName := fun _ => [], removeObjects := fun _ => .ok (),
     appletNew := fun _ => .ok ("applet-0001"),
     appletSetProperties := .ok (), addTags := .ok ()}
    none none (fun _ => "") none true false true none none).1

/-- Every event issued by the collision loop is a removal. -/
lemma collisionLoop_events (env : AppletEnv) (nm : String) (ow : Bool)
    (ids : List String) :
    ∀ ev ∈ (collisionLoop env nm ow ids).1, ∃ id, ev = AEvt.removeObjects id := by
  induction ids with
  | nil => intro ev h; simp [collisionLoop] at h
  | cons id rest ih =>
    intro ev h
    unfold collisionLoop at h
    by_cases how : ow = true
    · rw [how] at h
      simp only [if_true] at h
      cases hrm : env.removeObjects id with
      | ok u =>
        cases u
        rw [hrm] at h
        simp only [List.mem_cons] at h
        cases h with
        | inl h => exact ⟨id, h⟩
        | inr h => rw [how] at ih; exact ih ev h
      | error e =>
        rw [hrm] at h
        simp only [List.mem_singleton] at h
        exact ⟨id, h⟩
    · simp only [how, if_false] at h
      simp at h

/-- When the collision loop succeeds with overwrite on, its trace is exactly
one removal per found id, in order. -/
lemma collisionLoop_ok_trace (env : AppletEnv) (nm : String)
    (ids : List String)
    (h : (collisionLoop env nm true ids).2 = .ok ()) :
    (collisionLoop env nm true ids).1 = ids.map AEvt.removeObjects := by
  induction ids with
  | nil => simp [collisionLoop]
  | cons id rest ih =>
    unfold collisionLoop at h ⊢
    simp only [if_true] at h ⊢
    cases hrm : env.removeObjects id with
    | ok u =>
      cases u
      rw [hrm] at h
      dsimp only at h ⊢
      simp only [List.map_cons, List.cons.injEq, true_and]
      exact ih h
    | error e =>
      rw [hrm] at h
      simp at h

/-- The applet-creation tail always begins with the appletNew call. -/
lemma appletCreateSteps_head (env : AppletEnv) (s : AppletSpec) :
    ∃ t, (appletCreateSteps env s).1 = AEvt.appletNew :: t := by
  unfold appletCreateSteps
  cases env.appletNew s with
  | error e => exact ⟨[], rfl⟩
  | ok appletId =>
    cases env.appletSetProperties with
    | error e => exact ⟨[AEvt.appletSetProperties], rfl⟩
    | ok u =>
      cases u
      by_cases hc : s.categories.isSome = true
      · simp only [hc, if_true]
        cases env.addTags with
        | error e => exact ⟨[AEvt.appletSetProperties, AEvt.addTags], rfl⟩
        | ok u2 => exact ⟨[AEvt.appletSetProperties, AEvt.addTags], rfl⟩
      · simp only [hc, if_false]
        exact ⟨[AEvt.appletSetProperties], rfl⟩

/-- C5: upload_applet with collision checking on and overwrite off, when the
search finds an existing applet with the same name, raises the
naming-conflict AppletBuilderException; its trace is the search alone, so no
removal and no applet creation is issued. -/
theorem name_collision_rejected (manifest : AppletSpec) (rs : RunSpec)
    (nm : String)
    (hrs : manifest.runSpec = some rs) (hnm : manifest.name = some nm)
    (srcBasename readme : Option String) (codeContents : String → String)
    (uploaded : Option (List Bundle)) (autodep : Bool)
    (project workspaceId : Option String) (env : AppletEnv)
    (id0 : String) (rest : List String)
    (hfind : env.findByName nm = id0 :: rest) :
    upload_applet manifest srcBasename readme codeContents uploaded
        true false project autodep workspaceId env
      = ([AEvt.findDataObjects nm],
         .error (BuildErr.builder
           ("A applet with name " ++ nm ++ " already exists (id " ++ id0 ++
            ") and the overwrite option was not given"))) := by
  cases manifest with
  | mk mrs mproj mnm mfold mdx mdesc mtit msum mcat mdet =>
    change mrs = some rs at hrs
    change mnm = some nm at hnm
    subst hrs
    subst hnm
    unfold upload_applet _get_applet_spec _validate_applet_spec
    cases mproj <;> cases project <;> simp [hfind, collisionLoop]

/-- C5 witness: a concrete manifest and environment with one existing
same-named applet. -/
theorem name_collision_rejected_witness :
    upload_applet
        {runSpec := some {file := none, code := none, bundledDepends := none,
                          execDepends := none},
         project := some ("project-0001"), name := some ("myapplet"),
         folder := none, dxapi := none, description := none, title := none,
         summary := none, categories := none, details := none}
        none none (fun _ => "") none true false none true none
        {findByName := fun _ => [("applet-old")],
         removeObjects := fun _ => .ok (),
         appletNew := fun _ => .ok ("applet-0001"),
         appletSetProperties := .ok (), addTags := .ok ()}
      = ([AEvt.findDataObjects ("myapplet")],
         .error (BuildErr.builder
           ("A applet with name myapplet already exists (id applet-old) and the overwrite option was not given"))) := by
  have h := name_collision_rejected
    {runSpec := some {file := none, code := none, bundledDepends := none,
                      execDepends := none},
     project := some ("project-0001"), name := some ("myapplet"),
     folder := none, dxapi := none, description := none, title := none,
     summary := none, categories := none, details := none}
    {file := none, code := none, bundledDepends := none, execDepends := none}
    ("myapplet") rfl rfl none none (fun _ => "") none true none none
    {findByName := fun _ => [("applet-old")],
     removeObjects := fun _ => .ok (),
     appletNew := fun _ => .ok ("applet-0001"),
     appletSetProperties := .ok (), addTags := .ok ()}
    ("applet-old") [] rfl
  exact h

/-- With the collision check on and the name present in the manifest,
upload_applet reduces to the search event, the collision loop, and (when the
loop succeeds) the creation tail on some final spec. -/
lemma upload_applet_check_true (rs : RunSpec) (nm : String)
    (mproj mfold mdx mdesc mtit msum : Option String)
    (mcat : Option (List String)) (mdet : Option Details)
    (srcBasename readme : Option String) (codeContents : String → String)
    (uploaded : Option (List Bundle)) (ow autodep : Bool)
    (project workspaceId : Option String) (env : AppletEnv) :
    ∃ S : AppletSpec,
      upload_applet
          ⟨some rs, mproj, some nm, mfold, mdx, mdesc, mtit, msum, mcat, mdet⟩
          srcBasename readme codeContents uploaded true ow project autodep
          workspaceId env
        = (match (collisionLoop env nm ow (env.findByName nm)).2 with
           | .error e =>
               (AEvt.findDataObjects nm ::
                  (collisionLoop env nm ow (env.findByName nm)).1,
                .error e)
           | .ok _ =>
               (AEvt.findDataObjects nm ::
                  ((collisionLoop env nm ow (env.findByName nm)).1
                    ++ (appletCreateSteps env S).1),
                (appletCreateSteps env S).2)) := by
  cases mproj <;> cases project <;> exact ⟨_, rfl⟩

/-- C6: upload_applet with collision checking and overwrite on: whenever the
applet-creation call appears in the trace, the trace decomposes as the name
search, then one removal per found prior applet, and only then the creation;
in particular every found prior applet is removed, and each removal precedes
the creation. -/
theorem overwrite_removes_before_create (manifest : AppletSpec) (rs : RunSpec)
    (nm : String) (hrs : manifest.runSpec = some rs)
    (hnm : manifest.name = some nm)
    (srcBasename readme : Option String) (codeContents : String → String)
    (uploaded : Option (List Bundle)) (autodep : Bool)
    (project workspaceId : Option String) (env : AppletEnv)
    (hNew : AEvt.appletNew ∈ (upload_applet manifest srcBasename readme
        codeContents uploaded true true project autodep workspaceId env).1) :
    ∃ tail,
      (upload_applet manifest srcBasename readme codeContents uploaded
          true true project autodep workspaceId env).1
        = AEvt.findDataObjects nm ::
            ((env.findByName nm).map AEvt.removeObjects ++ AEvt.appletNew :: tail)
      ∧ ∀ id ∈ env.findByName nm,
          AEvt.removeObjects id
            ∈ (upload_applet manifest srcBasename readme codeContents uploaded
                true true project autodep workspaceId env).1 := by
  cases manifest with
  | mk mrs mproj mnm mfold mdx mdesc mtit msum mcat mdet =>
  change mrs = some rs at hrs
  change mnm = some nm at hnm
  subst hrs
  subst hnm
  obtain ⟨S, hS⟩ := upload_applet_check_true rs nm mproj mfold mdx mdesc mtit
    msum mcat mdet srcBasename readme codeContents uploaded true autodep
    project workspaceId env
  rw [hS] at hNew ⊢
  cases hcoll : (collisionLoop env nm true (env.findByName nm)).2 with
  | error e =>
    exfalso
    rw [hcoll] at hNew
    simp at hNew
    obtain ⟨id2, hid2⟩ := collisionLoop_events env nm true (env.findByName nm)
      AEvt.appletNew hNew
    cases hid2
  | ok u =>
    cases u
    have htr := collisionLoop_ok_trace env nm (env.findByName nm) hcoll
    rw [htr]
    dsimp only
    obtain ⟨t, ht⟩ := appletCreateSteps_head env S
    refine ⟨t, ?_, ?_⟩
    · simp [ht]
    · intro id hid
      simp [List.mem_map, ht]
      exact Or.inl hid

/-- A concrete manifest used to exercise the overwrite path. -/
def c6Manifest : AppletSpec :=
  {runSpec := some {file := none, code := none, bundledDepends := none,
                    execDepends := none},
   project := some ("project-0001"), name := some ("myapplet"), folder := none,
   dxapi := none, description := none, title := none, summary := none,
   categories := none, details := none}

/-- A concrete environment with one existing same-named applet and all calls
succeeding. -/
def c6Env : AppletEnv :=
  {findByName := fun _ => [("applet-old")],
   removeObjects := fun _ => .ok (),
   appletNew := fun _ => .ok ("applet-new"),
   appletSetProperties := .ok (), addTags := .ok ()}

/-- C6 witness: on the concrete overwrite run the creation happens and the
decomposition holds. -/
theorem overwrite_removes_before_create_witness :
    ∃ tail,
      (upload_applet c6Manifest none none (fun _ => "") none true true none
          true none c6Env).1
        = AEvt.findDataObjects ("myapplet") ::
            ((c6Env.findByName ("myapplet")).map AEvt.removeObjects
              ++ AEvt.appletNew :: tail)
      ∧ ∀ id ∈ c6Env.findByName ("myapplet"),
          AEvt.removeObjects id
            ∈ (upload_applet c6Manifest none none (fun _ => "") none true true
                none true none c6Env).1 :=
  overwrite_removes_before_create c6Manifest
    {file := none, code := none, bundledDepends := none, execDepends := none}
    ("myapplet") rfl rfl none none (fun _ => "") none true none none c6Env
    (by decide)

/-- Every event of _update_version is the update call itself, and it is
issued only when try_update is on. -/
lemma _update_version_events (env : AppEnv) (n v : String) (tu : Bool) :
    ∀ ev ∈ (_update_version env n v tu).1,
      ev = PEvent.appUpdate n v ∧ tu = true := by
  intro ev h
  unfold _update_version at h
  cases tu with
  | false => simp at h
  | true =>
    simp only [Bool.not_true, Bool.false_eq_true, if_false] at h
    cases hu : env.appUpdate n v with
    | ok appId =>
      rw [hu] at h
      simp at h
      exact ⟨h, rfl⟩
    | error e =>
      cases e with
      | dxapi n2 m2 =>
        rw [hu] at h
        dsimp only at h
        by_cases hn2 : n2 = "InvalidState"
        · simp only [hn2, if_pos rfl] at h
          simp at h
          exact ⟨h, rfl⟩
        · rw [if_neg hn2] at h
          simp at h
          exact ⟨h, rfl⟩
      | other m2 =>
        rw [hu] at h
        simp at h
        exact ⟨h, rfl⟩

/-- Events of _create_or_update_version: the creation call, the re-probe, or
an update call, the latter only with try_update on and an unpublished
existing record. -/
lemma _create_or_update_version_events (env : AppEnv) (n v : String)
    (tu : Bool) :
    ∀ ev ∈ (_create_or_update_version env n v tu).1,
      ev = PEvent.appNew v ∨ ev = PEvent.appDescribe n v
      ∨ (ev = PEvent.appUpdate n v ∧ tu = true
          ∧ env.appDescribe n v = .ok 0) := by
  intro ev h
  unfold _create_or_update_version at h
  cases hnew : env.appNew v with
  | ok appId =>
    rw [hnew] at h
    simp at h
    exact Or.inl h
  | error e =>
    cases e with
    | dxapi n2 m2 =>
      rw [hnew] at h
      dsimp only at h
      by_cases hc : (n2 = "InvalidInput" && m2 = aliasConflictMsg : Bool) = true
      · rw [if_pos hc] at h
        cases hd : env.appDescribe n v with
        | ok published =>
          rw [hd] at h
          dsimp only at h
          by_cases hp : published > 0
          · rw [if_pos hp] at h
            simp at h
            rcases h with h | h
            · exact Or.inl h
            · exact Or.inr (Or.inl h)
          · rw [if_neg hp] at h
            simp only [List.append_assoc, List.cons_append, List.nil_append,
              List.mem_cons] at h
            rcases h with h | h | h
            · exact Or.inl h
            · exact Or.inr (Or.inl h)
            · obtain ⟨hev, htu⟩ := _update_version_events env n v tu ev h
              refine Or.inr (Or.inr ⟨hev, htu, ?_⟩)
              have hz : published = 0 := Nat.eq_zero_of_not_pos hp
              rw [hz]
        | error e2 =>
          rw [hd] at h
          simp at h
          rcases h with h | h
          · exact Or.inl h
          · exact Or.inr (Or.inl h)
      · rw [if_neg hc] at h
        simp at h
        exact Or.inl h
    | other m2 =>
      rw [hnew] at h
      simp at h
      exact Or.inl h

/-- Events of one loop iteration: the probe itself, a creation attempt (only
when the probe reported ResourceNotFound), or an update attempt (only with
try_update on and the probe reporting an unpublished record). -/
lemma tryVersion_events (env : AppEnv) (name v : String) (tu : Bool) :
    ∀ ev ∈ (tryVersion env name v tu).1,
      ev = PEvent.appDescribe name v
      ∨ (ev = PEvent.appNew v
          ∧ ∃ m, env.appDescribe name v
              = .error (PyErr.dxapi ("ResourceNotFound") m))
      ∨ (ev = PEvent.appUpdate name v ∧ tu = true
          ∧ env.appDescribe name v = .ok 0) := by
  intro ev h
  unfold tryVersion at h
  cases hd : env.appDescribe name v with
  | ok published =>
    rw [hd] at h
    dsimp only at h
    by_cases hp : published = 0
    · rw [if_pos hp] at h
      simp only [List.mem_cons] at h
      rcases h with h | h
      · exact Or.inl h
      · obtain ⟨hev, htu⟩ := _update_version_events env name v tu ev h
        subst hp
        exact Or.inr (Or.inr ⟨hev, htu, rfl⟩)
    · rw [if_neg hp] at h
      simp at h
      exact Or.inl h
  | error e =>
    cases e with
    | dxapi n2 m2 =>
      rw [hd] at h
      dsimp only at h
      by_cases hn2 : n2 = "ResourceNotFound"
      · rw [if_pos hn2] at h
        simp only [List.mem_cons] at h
        rcases h with h | h
        · exact Or.inl h
        · rcases _create_or_update_version_events env name v tu ev h with
            h2 | h2 | h2
          · subst hn2
            exact Or.inr (Or.inl ⟨h2, m2, rfl⟩)
          · exact Or.inl h2
          · rw [hd] at h2
            cases h2.2.2
      · rw [if_neg hn2] at h
        simp at h
        exact Or.inl h
    | other m2 =>
      rw [hd] at h
      simp at h
      exact Or.inl h

/-- Every event of the version loop belongs to one of the attempted
versions, with the per-version characterization of tryVersion_events. -/
lemma createAppGo_events (env : AppEnv) (name : String) (tu : Bool)
    (vs : List String) :
    ∀ ev ∈ (createAppGo env name tu vs).1, ∃ v ∈ vs,
      ev = PEvent.appDescribe name v
      ∨ (ev = PEvent.appNew v
          ∧ ∃ m, env.appDescribe name v
              = .error (PyErr.dxapi ("ResourceNotFound") m))
      ∨ (ev = PEvent.appUpdate name v ∧ tu = true
          ∧ env.appDescribe name v = .ok 0) := by
  induction vs with
  | nil => intro ev h; simp [createAppGo] at h
  | cons v rest ih =>
    intro ev h
    unfold createAppGo at h
    dsimp only at h
    cases hr : (tryVersion env name v tu).2 with
    | ok o =>
      cases o with
      | some appId =>
        rw [hr] at h
        dsimp only at h
        exact ⟨v, List.mem_cons_self v rest, tryVersion_events env name v tu ev h⟩
      | none =>
        rw [hr] at h
        dsimp only at h
        rw [List.mem_append] at h
        rcases h with h | h
        · exact ⟨v, List.mem_cons_self v rest, tryVersion_events env name v tu ev h⟩
        · obtain ⟨v2, hv2, hd⟩ := ih ev h
          exact ⟨v2, List.mem_cons_of_mem v hv2, hd⟩
    | error e =>
      rw [hr] at h
      dsimp only at h
      exact ⟨v, List.mem_cons_self v rest, tryVersion_events env name v tu ev h⟩


/-- The create_app trace is the loop trace followed by a suffix consisting
only of the terminal category/publish calls. -/
lemma create_app_post (env : AppEnv) (name : String) (vs : List String)
    (tu pub cat : Bool) :
    ∃ t, (create_app env name vs tu pub cat).1
        = (createAppGo env name tu vs).1 ++ t
      ∧ ∀ ev ∈ t, (∃ a, ev = PEvent.appAddCategories a)
          ∨ (∃ a, ev = PEvent.appPublish a) := by
  unfold create_app
  dsimp only
  cases hr : (createAppGo env name tu vs).2 with
  | error e => exact ⟨[], by simp, by simp⟩
  | ok o =>
    cases o with
    | none => exact ⟨[], by simp, by simp⟩
    | some appId =>
      dsimp only
      by_cases hcat : cat = true
      · rw [hcat]
        simp only [if_true]
        cases hac : env.appAddCategories appId with
        | error e =>
          refine ⟨[PEvent.appAddCategories appId], by simp, ?_⟩
          intro ev h
          simp at h
          subst h
          exact Or.inl ⟨appId, rfl⟩
        | ok u =>
          cases u
          dsimp only
          by_cases hpub : pub = true
          · rw [hpub]
            simp only [if_true]
            cases hap : env.appPublish appId with
            | error e =>
              refine ⟨[PEvent.appAddCategories appId, PEvent.appPublish appId],
                by simp, ?_⟩
              intro ev h
              simp at h
              rcases h with h | h
              · subst h; exact Or.inl ⟨appId, rfl⟩
              · subst h; exact Or.inr ⟨appId, rfl⟩
            | ok u2 =>
              cases u2
              refine ⟨[PEvent.appAddCategories appId, PEvent.appPublish appId],
                by simp, ?_⟩
              intro ev h
              simp at h
              rcases h with h | h
              · subst h; exact Or.inl ⟨appId, rfl⟩
              · subst h; exact Or.inr ⟨appId, rfl⟩
          · have hpf : pub = false := by
              cases pub
              · rfl
              · exact absurd rfl hpub
            rw [hpf]
            simp only [Bool.false_eq_true, if_false]
            refine ⟨[PEvent.appAddCategories appId], by simp, ?_⟩
            intro ev h
            simp at h
            subst h
            exact Or.inl ⟨appId, rfl⟩
      · have hcf : cat = false := by
          cases cat
          · rfl
          · exact absurd rfl hcat
        rw [hcf]
        simp only [Bool.false_eq_true, if_false]
        by_cases hpub : pub = true
        · rw [hpub]
          simp only [if_true]
          cases hap : env.appPublish appId with
          | error e =>
            refine ⟨[PEvent.appPublish appId], by simp, ?_⟩
            intro ev h
            simp at h
            subst h
            exact Or.inr ⟨appId, rfl⟩
          | ok u2 =>
            cases u2
            refine ⟨[PEvent.appPublish appId], by simp, ?_⟩
            intro ev h
            simp at h
            subst h
            exact Or.inr ⟨appId, rfl⟩
        · have hpf : pub = false := by
            cases pub
            · rfl
            · exact absurd rfl hpub
          rw [hpf]
          simp only [Bool.false_eq_true, if_false]
          exact ⟨[], by simp, by simp⟩

/-- Every event of create_app is a loop event or one of the terminal
category/publish calls. -/
lemma create_app_events (env : AppEnv) (name : String) (vs : List String)
    (tu pub cat : Bool) :
    ∀ ev ∈ (create_app env name vs tu pub cat).1,
      ev ∈ (createAppGo env name tu vs).1
      ∨ (∃ a, ev = PEvent.appAddCategories a)
      ∨ (∃ a, ev = PEvent.appPublish a) := by
  intro ev h
  obtain ⟨t, ht, hchar⟩ := create_app_post env name vs tu pub cat
  rw [ht, List.mem_append] at h
  rcases h with h | h
  · exact Or.inl h
  · exact Or.inr (hchar ev h)

/-- A published candidate reduces its loop iteration to the probe alone,
with the exhausted outcome. -/
lemma tryVersion_published (env : AppEnv) (name v : String) (tu : Bool)
    (p : Nat) (h : env.appDescribe name v = .ok p) (hp : p ≠ 0) :
    tryVersion env name v tu = ([PEvent.appDescribe name v], .ok none) := by
  unfold tryVersion
  rw [h]
  dsimp only
  rw [if_neg hp]

/-- Every loop iteration begins with its probe. -/
lemma tryVersion_head (env : AppEnv) (name v : String) (tu : Bool) :
    ∃ t, (tryVersion env name v tu).1 = PEvent.appDescribe name v :: t := by
  unfold tryVersion
  cases hd : env.appDescribe name v with
  | ok published =>
    dsimp only
    by_cases hp : published = 0
    · rw [if_pos hp]
      exact ⟨_, rfl⟩
    · rw [if_neg hp]
      exact ⟨[], rfl⟩
  | error e =>
    cases e with
    | dxapi n m =>
      dsimp only
      by_cases hn : n = "ResourceNotFound"
      · rw [if_pos hn]
        exact ⟨_, rfl⟩
      · rw [if_neg hn]
        exact ⟨[], rfl⟩
    | other m => exact ⟨[], rfl⟩

/-- The head iteration trace is an initial segment of the loop trace. -/
lemma createAppGo_cons_prefix (env : AppEnv) (name : String) (tu : Bool)
    (v : String) (rest : List String) :
    ∃ t, (createAppGo env name tu (v :: rest)).1
      = (tryVersion env name v tu).1 ++ t := by
  unfold createAppGo
  dsimp only
  cases hr : (tryVersion env name v tu).2 with
  | ok o =>
    cases o with
    | some appId => exact ⟨[], by simp⟩
    | none => exact ⟨_, rfl⟩
  | error e => exact ⟨[], by simp⟩

/-- A candidate whose iteration ends exhausted passes control to the rest of
the loop, its probe alone joining the trace. -/
lemma createAppGo_cons_skip (env : AppEnv) (name : String) (tu : Bool)
    (v : String) (rest : List String)
    (h : tryVersion env name v tu = ([PEvent.appDescribe name v], .ok none)) :
    createAppGo env name tu (v :: rest)
      = (PEvent.appDescribe name v :: (createAppGo env name tu rest).1,
         (createAppGo env name tu rest).2) := by
  simp only [createAppGo]
  rw [h]
  rfl

/-- C1: over the candidate list [v1, v2], when the probe reports v1 as
existing and already published, the publisher issues no create and no update
call for v1 and moves on to probe v2; and when both candidates are
published, create_app fails with the exhaustion error whose message names
both attempted version strings. -/
theorem create_app_skips_published (envA envB : AppEnv) (name v1 v2 : String)
    (tu pub cat : Bool) (p1 q1 q2 : Nat)
    (hA1 : envA.appDescribe name v1 = .ok p1) (hA1p : p1 ≠ 0)
    (hB1 : envB.appDescribe name v1 = .ok q1) (hB1p : q1 ≠ 0)
    (hB2 : envB.appDescribe name v2 = .ok q2) (hB2p : q2 ≠ 0) :
    (PEvent.appNew v1 ∉ (create_app envA name [v1, v2] tu pub cat).1
     ∧ PEvent.appUpdate name v1 ∉ (create_app envA name [v1, v2] tu pub cat).1
     ∧ PEvent.appDescribe name v2 ∈ (create_app envA name [v1, v2] tu pub cat).1)
    ∧ create_app envB name [v1, v2] tu pub cat
        = ([PEvent.appDescribe name v1, PEvent.appDescribe name v2],
           .error (CreateErr.exhausted
             ("Could not create any of the requested versions: "
               ++ (v1 ++ ", " ++ v2)))) := by
  constructor
  · refine ⟨?_, ?_, ?_⟩
    · intro hmem
      rcases create_app_events envA name [v1, v2] tu pub cat _ hmem with
        h | h | h
      · obtain ⟨v, hv, hd⟩ := createAppGo_events envA name tu [v1, v2] _ h
        rcases hd with hd | hd | hd
        · simp at hd
        · obtain ⟨hvv, m, hdd⟩ := hd
          have : v = v1 := by
            cases hvv
            rfl
          rw [this, hA1] at hdd
          cases hdd
        · simp at hd
      · obtain ⟨a, ha⟩ := h
        simp at ha
      · obtain ⟨a, ha⟩ := h
        simp at ha
    · intro hmem
      rcases create_app_events envA name [v1, v2] tu pub cat _ hmem with
        h | h | h
      · obtain ⟨v, hv, hd⟩ := createAppGo_events envA name tu [v1, v2] _ h
        rcases hd with hd | hd | hd
        · simp at hd
        · simp at hd
        · obtain ⟨hvv, htu, hdd⟩ := hd
          have : v = v1 := by
            cases hvv
            rfl
          rw [this, hA1] at hdd
          have : p1 = 0 := by
            cases hdd
            rfl
          exact hA1p this
      · obtain ⟨a, ha⟩ := h
        simp at ha
      · obtain ⟨a, ha⟩ := h
        simp at ha
    · have h1 : tryVersion envA name v1 tu
          = ([PEvent.appDescribe name v1], .ok none) :=
        tryVersion_published envA name v1 tu p1 hA1 hA1p
      have hgo := createAppGo_cons_skip envA name tu v1 [v2] h1
      obtain ⟨t, hpre, hchar⟩ := create_app_post envA name [v1, v2] tu pub cat
      rw [hpre, hgo]
      obtain ⟨t3, ht3⟩ := createAppGo_cons_prefix envA name tu v2 []
      rw [ht3]
      obtain ⟨t2, ht2⟩ := tryVersion_head envA name v2 tu
      rw [ht2]
      simp
  · have h1 : tryVersion envB name v1 tu
        = ([PEvent.appDescribe name v1], .ok none) :=
      tryVersion_published envB name v1 tu q1 hB1 hB1p
    have h2 : tryVersion envB name v2 tu
        = ([PEvent.appDescribe name v2], .ok none) :=
      tryVersion_published envB name v2 tu q2 hB2 hB2p
    have hgo2 := createAppGo_cons_skip envB name tu v2 [] h2
    have hgo := createAppGo_cons_skip envB name tu v1 [v2] h1
    unfold create_app
    rw [hgo, hgo2]
    rfl

/-- A concrete environment in which every version already exists published. -/
def c1Env : AppEnv :=
  {appDescribe := fun _ _ => .ok 1,
   appNew := fun _ => .error (PyErr.dxapi ("InvalidInput") aliasConflictMsg),
   appUpdate := fun _ _ => .ok ("app-0001"),
   appAddCategories := fun _ => .ok (),
   appPublish := fun _ => .ok ()}

/-- C1 witness: with both candidate versions published, the concrete run
ends in the exhaustion error naming both. -/
theorem create_app_skips_published_witness :
    create_app c1Env ("myapp") [("1.0.0"), ("1.0.1")] true false false
      = ([PEvent.appDescribe ("myapp") ("1.0.0"),
          PEvent.appDescribe ("myapp") ("1.0.1")],
         .error (CreateErr.exhausted
           ("Could not create any of the requested versions: "
             ++ ("1.0.0" ++ ", " ++ "1.0.1")))) :=
  (create_app_skips_published c1Env c1Env ("myapp") ("1.0.0") ("1.0.1")
    true false false 1 1 1 rfl (by decide) rfl (by decide) rfl (by decide)).2

/-- C10: with try_update off, create_app never issues an appUpdate call for
any environment and any candidate list; _update_version returns None at once
with an empty trace; a candidate probed as existing unpublished is treated
as exhausted, the loop falling through to the remaining candidates after the
probe alone; and a creation attempt that hits the alias conflict with an
unpublished existing record also yields None after the re-probe, with no
update call. -/
theorem no_update_when_disabled (env envC envD : AppEnv)
    (name v : String) (rest vs : List String) (pub cat : Bool)
    (hC : envC.appDescribe name v = .ok 0)
    (hD1 : envD.appNew v = .error (PyErr.dxapi ("InvalidInput") aliasConflictMsg))
    (hD2 : envD.appDescribe name v = .ok 0) :
    (∀ n w, PEvent.appUpdate n w ∉ (create_app env name vs false pub cat).1)
    ∧ _update_version env name v false = ([], .ok none)
    ∧ createAppGo envC name false (v :: rest)
        = (PEvent.appDescribe name v :: (createAppGo envC name false rest).1,
           (createAppGo envC name false rest).2)
    ∧ _create_or_update_version envD name v false
        = ([PEvent.appNew v, PEvent.appDescribe name v], .ok none) := by
  refine ⟨?_, rfl, ?_, ?_⟩
  · intro n w hmem
    rcases create_app_events env name vs false pub cat _ hmem with h | h | h
    · obtain ⟨v2, hv2, hd⟩ := createAppGo_events env name false vs _ h
      rcases hd with hd | hd | hd
      · simp at hd
      · simp at hd
      · cases hd.2.1
    · obtain ⟨a, ha⟩ := h
      simp at ha
    · obtain ⟨a, ha⟩ := h
      simp at ha
  · have htv : tryVersion envC name v false
        = ([PEvent.appDescribe name v], .ok none) := by
      unfold tryVersion
      rw [hC]
      rfl
    exact createAppGo_cons_skip envC name false v rest htv
  · unfold _create_or_update_version
    rw [hD1]
    dsimp only
    rw [hD2]
    rfl

/-- A concrete environment whose candidate exists unpublished. -/
def c10EnvC : AppEnv :=
  {appDescribe := fun _ _ => .ok 0,
   appNew := fun _ => .error (PyErr.dxapi ("InvalidInput") aliasConflictMsg),
   appUpdate := fun _ _ => .ok ("app-0001"),
   appAddCategories := fun _ => .ok (),
   appPublish := fun _ => .ok ()}

/-- C10 witness: the alias-conflict path on a concrete environment returns
None without issuing an update call. -/
theorem no_update_when_disabled_witness :
    _create_or_update_version c10EnvC ("myapp") ("1.0.0") false
      = ([PEvent.appNew ("1.0.0"), PEvent.appDescribe ("myapp") ("1.0.0")],
         .ok none) :=
  (no_update_when_disabled c10EnvC c10EnvC c10EnvC ("myapp") ("1.0.0") [] []
    false false rfl rfl rfl).2.2.2

end DxToolkit
